import Mathlib

/-!
Shallow embedding of the GeNN CUDA backend optimiser
(src/backends/cuda/src/optimiser.cc): the architecture parameter table,
the workload sizer, the per-kernel occupancy search, and the device
selection policies.  Machine `size_t` arithmetic is modelled as `Nat`
with explicit reduction modulo 2^64 where the source can wrap.
-/

namespace GeNN

/-- Modelled from the spec: `Utils::ceilDivide` from the CUDA backend utils
header (not under src/); the spec describes it as ceiling division of
`numerator` by `denominator`. -/
def ceilDivide (numerator denominator : Nat) : Nat :=
  (numerator + denominator - 1) / denominator

/-- Modelled from the spec: `Utils::padSize` from the CUDA backend utils
header (not under src/); rounds `size` up to the next multiple of the
allocation granularity `granularity`. -/
def padSize (size granularity : Nat) : Nat :=
  ceilDivide size granularity * granularity

/-- Hardware warp size, `const size_t warpSize = 32` in `optimizeBlockSize`. -/
def warpSize : Nat := 32

/-- The two probe block sizes, `repBlockSizes[2] = {warpSize, warpSize * 2}`. -/
def repBlockSizes : Nat × Nat := (warpSize, warpSize * 2)

/-- Wrapping subtraction of `size_t` values (modulo 2^64), used where the
source subtracts unsigned quantities that may underflow. -/
def sizeSub (a b : Nat) : Nat :=
  (2 ^ 64 + a % 2 ^ 64 - b % 2 ^ 64) % 2 ^ 64

/-- Output of `getDeviceArchitectureProperties`: the four allocation
constants, together with whether the unsupported-version warning was
logged (the `LOGW` lines in the final branch). -/
structure ArchProps where
  smemAllocGran : Nat
  warpAllocGran : Nat
  regAllocGran : Nat
  maxBlocksPerSM : Nat
  warned : Bool
deriving DecidableEq, Repr

/-- Architecture parameter table, `getDeviceArchitectureProperties` in
optimiser.cc lines 31-76: branches on the device compute-capability major
version, with minor-version point variants for majors 1 and 6, and a
fallback branch that also logs a warning when `major > 7`. -/
def getDeviceArchitectureProperties (major minor : Nat) : ArchProps :=
  if major = 1 then
    ⟨512, 2, if minor < 2 then 256 else 512, 8, false⟩
  else if major = 2 then
    ⟨128, 2, 64, 8, false⟩
  else if major = 3 then
    ⟨256, 4, 256, 16, false⟩
  else if major = 5 then
    ⟨256, 4, 256, 32, false⟩
  else if major = 6 then
    ⟨256, if minor = 0 then 2 else 4, 256, 32, false⟩
  else
    ⟨256, 4, 256, 32, decide (7 < major)⟩

/-- Device properties snapshot (`cudaDeviceProp` fields read by the
optimiser). -/
structure DeviceProps where
  major : Nat
  minor : Nat
  multiProcessorCount : Nat
  maxThreadsPerBlock : Nat
  maxThreadsPerMultiProcessor : Nat
  regsPerBlock : Nat
  sharedMemPerMultiprocessor : Nat
  totalGlobalMem : Nat
deriving DecidableEq, Repr

/-- The kernel categories, the `Kernel*` enumerators of
`CodeGenerator::CUDA::Backend`. -/
inductive Kernel
  | KernelNeuronUpdate
  | KernelPresynapticUpdate
  | KernelPostsynapticUpdate
  | KernelSynapseDynamicsUpdate
  | KernelInitialize
  | KernelInitializeSparse
  | KernelPreNeuronReset
  | KernelPreSynapseReset
deriving DecidableEq, Repr

/-- One local neuron group of the model, with the fields `calcGroupSizes`
reads: population size, and the two device-initialisation predicates. -/
structure NeuronGroup where
  numNeurons : Nat
  simRNGRequired : Bool
  initCodeRequired : Bool
deriving DecidableEq, Repr

/-- One local synapse group of the model.  The three thread-count fields
record the values of the external sizing functions
`Backend::getNumPresynapticUpdateThreads`,
`Backend::getNumPostsynapticUpdateThreads` and
`Backend::getNumSynapseDynamicsThreads` (collaborators outside the
optimiser); the Bool fields model the matrix-type bits and
`isWUVarInitRequired`, and `learnPostCode` is the weight-update model's
postsynaptic learning code string. -/
structure SynapseGroup where
  learnPostCode : String
  numPresynapticUpdateThreads : Nat
  numPostsynapticUpdateThreads : Nat
  numSynapseDynamicsThreads : Nat
  matrixWeightIndividual : Bool
  wuVarInitRequired : Bool
  matrixConnectivitySparse : Bool
  srcNumNeurons : Nat
  trgNumNeurons : Nat
deriving DecidableEq, Repr

/-- The part of `NNmodel` read by `calcGroupSizes`. -/
structure NNmodel where
  localNeuronGroups : List NeuronGroup
  localSynapseGroups : List SynapseGroup
  numPreSynapseResetRequiredGroups : Nat
deriving DecidableEq, Repr

/-- The `groupSizes` array: one ordered list of workload-group sizes per
kernel category. -/
def GroupSizes := Kernel → List Nat

/-- All lists start empty (`std::vector` default construction). -/
def emptyGroupSizes : GroupSizes := fun _ => []

/-- One `groupSizes[k].push_back(n)`. -/
def pushGroup (g : GroupSizes) (k : Kernel) (n : Nat) : GroupSizes :=
  fun k2 => if k2 = k then g k2 ++ [n] else g k2

/-- Body of the neuron-group loop of `calcGroupSizes` (lines 86-94). -/
def addNeuronGroup (g : GroupSizes) (n : NeuronGroup) : GroupSizes :=
  let g1 := pushGroup g Kernel.KernelNeuronUpdate n.numNeurons
  if n.simRNGRequired || n.initCodeRequired then
    pushGroup g1 Kernel.KernelInitialize n.numNeurons
  else g1

/-- Body of the synapse-group loop of `calcGroupSizes` (lines 97-119).
Note the source guards both the postsynaptic-update and the
synapse-dynamics contribution by the same `getLearnPostCode().empty()`
test (lines 100 and 104). -/
def addSynapseGroup (g : GroupSizes) (s : SynapseGroup) : GroupSizes :=
  let g1 := pushGroup g Kernel.KernelPresynapticUpdate s.numPresynapticUpdateThreads
  let g2 := if !s.learnPostCode.isEmpty then
      pushGroup g1 Kernel.KernelPostsynapticUpdate s.numPostsynapticUpdateThreads
    else g1
  let g3 := if !s.learnPostCode.isEmpty then
      pushGroup g2 Kernel.KernelSynapseDynamicsUpdate s.numSynapseDynamicsThreads
    else g2
  if s.matrixWeightIndividual && s.wuVarInitRequired then
    if s.matrixConnectivitySparse then
      pushGroup g3 Kernel.KernelInitializeSparse s.srcNumNeurons
    else
      pushGroup g3 Kernel.KernelInitialize (s.srcNumNeurons * s.trgNumNeurons)
  else g3

/-- `calcGroupSizes` (optimiser.cc lines 78-124): the neuron-group loop,
then the synapse-group loop, then the two synthetic reset contributions —
`PreNeuronReset` receives the neuron-group count and `PreSynapseReset`
the count of projections requiring a pre-update reset, unconditionally. -/
def calcGroupSizes (m : NNmodel) : GroupSizes :=
  pushGroup
    (pushGroup
      (m.localSynapseGroups.foldl addSynapseGroup
        (m.localNeuronGroups.foldl addNeuronGroup emptyGroupSizes))
      Kernel.KernelPreNeuronReset m.localNeuronGroups.length)
    Kernel.KernelPreSynapseReset m.numPreSynapseResetRequiredGroups

/-- The kernel attributes read back from a compiled module
(`cudaFuncAttributes` fields used by the optimiser). -/
structure FuncAttr where
  numRegs : Nat
  sharedSizeBytes : Nat
deriving DecidableEq, Repr

/-- Slope `reqSharedMemBytesA` of the affine shared-memory model
(line 230): `(reqSharedMemBytes[1] - reqSharedMemBytes[0]) /
(repBlockSizes[1] - repBlockSizes[0])` in `size_t` arithmetic. -/
def reqSharedMemBytesA (a0 a1 : FuncAttr) : Nat :=
  sizeSub a1.sharedSizeBytes a0.sharedSizeBytes / sizeSub repBlockSizes.2 repBlockSizes.1

/-- Intercept `reqSharedMemBytesB` (line 231):
`reqSharedMemBytes[0] - (reqSharedMemBytesA * repBlockSizes[0])` in
`size_t` arithmetic. -/
def reqSharedMemBytesB (a0 a1 : FuncAttr) : Nat :=
  sizeSub a0.sharedSizeBytes (reqSharedMemBytesA a0 a1 * repBlockSizes.1)

/-- Estimated padded shared memory at a candidate block size (line 240):
`padSize((A * blockThreads) + B, smemAllocGran)`. -/
def reqSharedMemBytesAt (arch : ArchProps) (A B blockThreads : Nat) : Nat :=
  padSize ((A * blockThreads + B) % 2 ^ 64) arch.smemAllocGran

/-- Required block count (lines 244-248): `std::accumulate` over the
category's workload-group sizes of `ceilDivide(size, blockThreads)`. -/
def reqBlocks (groupSizes : List Nat) (blockThreads : Nat) : Nat :=
  groupSizes.foldl (fun acc size => acc + ceilDivide size blockThreads) 0

/-- SM block limit before the shared-memory correction (lines 252-281):
threads-per-multiprocessor limit, capped by `maxBlocksPerSM`, and for
`major == 1` devices additionally by the padded per-block register
budget (the per-warp branch applies no further correction). -/
def smBlockLimitBase (dp : DeviceProps) (arch : ArchProps) (reqNumRegs blockWarps : Nat) : Nat :=
  let blockThreads := blockWarps * warpSize
  let l1 := dp.maxThreadsPerMultiProcessor / blockThreads
  let l2 := min l1 arch.maxBlocksPerSM
  if dp.major = 1 then
    let paddedNumBlockWarps := padSize blockWarps arch.warpAllocGran
    let paddedNumRegPerBlock := padSize (paddedNumBlockWarps * reqNumRegs * warpSize) arch.regAllocGran
    min l2 (dp.regsPerBlock / paddedNumRegPerBlock)
  else l2

/-- Full SM block limit (lines 252-288): the base limit, further capped by
`sharedMemPerMultiprocessor / reqSharedMemBytes` when the estimated
shared memory is nonzero. -/
def smBlockLimit (dp : DeviceProps) (arch : ArchProps) (reqNumRegs A B blockWarps : Nat) : Nat :=
  let req := reqSharedMemBytesAt arch A B (blockWarps * warpSize)
  let base := smBlockLimitBase dp arch reqNumRegs blockWarps
  if req ≠ 0 then min base (dp.sharedMemPerMultiprocessor / req) else base

/-- Occupancy of a candidate (line 291):
`blockWarps * smBlockLimit * multiProcessorCount`. -/
def candidateOccupancy (dp : DeviceProps) (arch : ArchProps) (reqNumRegs A B blockWarps : Nat) : Nat :=
  blockWarps * smBlockLimit dp arch reqNumRegs A B blockWarps * dp.multiProcessorCount

/-- The small-workload test of line 294:
`reqBlocks <= (smBlockLimit * deviceProps.multiProcessorCount)`. -/
def smallWorkloadCond (dp : DeviceProps) (arch : ArchProps) (reqNumRegs A B : Nat)
    (groups : List Nat) (blockWarps : Nat) : Prop :=
  reqBlocks groups (blockWarps * warpSize) ≤
    smBlockLimit dp arch reqNumRegs A B blockWarps * dp.multiProcessorCount

instance (dp : DeviceProps) (arch : ArchProps) (reqNumRegs A B : Nat)
    (groups : List Nat) (blockWarps : Nat) :
    Decidable (smallWorkloadCond dp arch reqNumRegs A B groups blockWarps) :=
  inferInstanceAs (Decidable (_ ≤ _))

/-- Per-kernel optimisation state: the entry of `blockSize` being written
and the `(bool, size_t)` pair of `KernelOptimisationOutput`. -/
structure KernelOptState where
  blockSize : Nat
  small : Bool
  occupancy : Nat
deriving DecidableEq, Repr

/-- The candidate loop of `optimizeBlockSize` (lines 235-312) over the
remaining candidate warp counts: on the small-workload test the candidate
is selected, marked small, given its occupancy, and the loop breaks;
otherwise a candidate improving the best occupancy is retained and the
search continues. -/
def searchCandidates (dp : DeviceProps) (arch : ArchProps) (reqNumRegs A B : Nat)
    (groups : List Nat) : List Nat → KernelOptState → KernelOptState
  | [], s => s
  | blockWarps :: rest, s =>
    if smallWorkloadCond dp arch reqNumRegs A B groups blockWarps then
      { blockSize := blockWarps * warpSize, small := true,
        occupancy := candidateOccupancy dp arch reqNumRegs A B blockWarps }
    else if candidateOccupancy dp arch reqNumRegs A B blockWarps > s.occupancy then
      searchCandidates dp arch reqNumRegs A B groups rest
        { blockSize := blockWarps * warpSize, small := s.small,
          occupancy := candidateOccupancy dp arch reqNumRegs A B blockWarps }
    else
      searchCandidates dp arch reqNumRegs A B groups rest s

/-- One kernel category's pass of the optimisation loop of
`optimizeBlockSize` (lines 221-315): registers are taken from the first
probe (line 226), the affine shared-memory coefficients from both probes
(lines 230-231), and candidates are the successive warp multiples
`blockWarps = 1 .. maxBlockWarps - 1` starting from the zeroed state. -/
def optimizeKernel (dp : DeviceProps) (arch : ArchProps) (a0 a1 : FuncAttr)
    (groups : List Nat) : KernelOptState :=
  searchCandidates dp arch a0.numRegs (reqSharedMemBytesA a0 a1) (reqSharedMemBytesB a0 a1)
    groups (List.range' 1 (dp.maxThreadsPerBlock / warpSize - 1)) ⟨0, false, 0⟩

/-- Errors thrown by the selector and the optimiser: the
`"No CUDA devices found"` runtime error and the
`"optimizeBlockSize: NVCC failed"` runtime error. -/
inductive OptError
  | noDeviceFound
  | buildFailure
deriving DecidableEq, Repr

/-- One kernel's entry in `KernelOptimisationOutput`: the small-workload
flag and the occupancy score. -/
structure KernelOpt where
  small : Bool
  occupancy : Nat
deriving DecidableEq, Repr

/-- Total occupancy of a device (lines 349-353): `std::accumulate` of the
per-kernel occupancy scores starting from 0. -/
def totalOccupancy (ks : List KernelOpt) : Nat :=
  ks.foldl (fun acc k => acc + k.occupancy) 0

/-- Small-model kernel count of a device (lines 356-360): `std::accumulate`
adding 1 for each kernel whose small flag is set. -/
def numSmallModelKernels (ks : List KernelOpt) : Nat :=
  ks.foldl (fun acc k => acc + if k.small then 1 else 0) 0

/-- The per-device result of `optimizeBlockSize` as consumed by
`chooseOptimalDevice`: device architecture version and the optimiser's
kernel records and block-size assignment. -/
structure DeviceOptResult where
  major : Nat
  minor : Nat
  kernels : List KernelOpt
  blockSize : Kernel → Nat

instance : Inhabited DeviceOptResult :=
  ⟨⟨0, 0, [], fun _ => 0⟩⟩

/-- The `Device` tuple built at line 363:
`(smVersion, totalOccupancy, numSmallModelKernels, optimalBlockSize)`. -/
structure DeviceEntry where
  smVersion : Nat
  totalOcc : Nat
  numSmall : Nat
  blockSize : Kernel → Nat

instance : Inhabited DeviceEntry :=
  ⟨⟨0, 0, 0, fun _ => 0⟩⟩

/-- The summary entry for one device: `smVersion = major * 10 + minor`
(line 342) and the two accumulated scores. -/
def mkDeviceEntry (r : DeviceOptResult) : DeviceEntry :=
  ⟨r.major * 10 + r.minor, totalOccupancy r.kernels, numSmallModelKernels r.kernels, r.blockSize⟩

/-- The comparator handed to `std::min_element` (lines 367-397): `a` is
better when it has strictly more small-model kernels, or on a tie
strictly higher total occupancy, or on a further tie a strictly higher
SM version. -/
def isBetterDevice (a b : DeviceEntry) : Bool :=
  if a.numSmall > b.numSmall then true
  else if a.numSmall = b.numSmall then
    if a.totalOcc > b.totalOcc then true
    else if a.totalOcc = b.totalOcc then
      decide (a.smVersion > b.smVersion)
    else false
  else false

/-- The scan performed by `std::min_element`: the best-so-far element and
its index are replaced exactly when the current element compares better. -/
def chooseBestAux : List DeviceEntry → Nat → DeviceEntry → Nat → Nat × DeviceEntry
  | [], bi, b, _ => (bi, b)
  | e :: es, bi, b, i =>
    if isBetterDevice e b then chooseBestAux es i e (i + 1)
    else chooseBestAux es bi b (i + 1)

/-- `chooseOptimalDevice` (lines 321-409), abstracted over the per-device
optimisation results: throws when no device is visible, otherwise builds
the summary entries and returns the `std::min_element` winner's index and
its block-size assignment. -/
def chooseOptimalDevice (rs : List DeviceOptResult) : Except OptError (Nat × (Kernel → Nat)) :=
  match rs with
  | [] => .error .noDeviceFound
  | r :: rt =>
    let p := chooseBestAux (rt.map mkDeviceEntry) 0 (mkDeviceEntry r) 1
    .ok (p.1, p.2.blockSize)

/-- Lexicographic strict order on the ranking keys
(smallWorkloadCount, totalOccupancy, smVersion), written from the spec's
ranking sentence for comparison with the comparator of the source. -/
def keyLt (a b : Nat × Nat × Nat) : Prop :=
  a.1 < b.1 ∨ (a.1 = b.1 ∧ (a.2.1 < b.2.1 ∨ (a.2.1 = b.2.1 ∧ a.2.2 < b.2.2)))

/-- Reflexive closure of `keyLt`. -/
def keyLe (a b : Nat × Nat × Nat) : Prop :=
  keyLt a b ∨ a = b

/-- Ranking key of a device entry. -/
def deviceKey (d : DeviceEntry) : Nat × Nat × Nat :=
  (d.numSmall, d.totalOcc, d.smVersion)

/-- One step of the loop of `chooseDeviceWithMostGlobalMemory`
(lines 423-433), on state (bestDevice, mostGlobalMemory, d): a device
strictly improving on the best-so-far global memory becomes the best. -/
def mostMemStep (acc : Int × Nat × Nat) (mem : Nat) : Int × Nat × Nat :=
  if mem > acc.2.1 then (Int.ofNat acc.2.2, mem, acc.2.2 + 1)
  else (acc.1, acc.2.1, acc.2.2 + 1)

/-- `chooseDeviceWithMostGlobalMemory` (lines 411-437), abstracted over
the visible devices' `totalGlobalMem` values: throws when no device is
visible, otherwise scans with `bestDevice` initialised to -1 and
`mostGlobalMemory` to 0. -/
def chooseDeviceWithMostGlobalMemory (mems : List Nat) : Except OptError Int :=
  if mems.length = 0 then .error .noDeviceFound
  else .ok (mems.foldl mostMemStep (-1, 0, 0)).1

/-- The `autoChooseDevice == false` path of `Optimiser::createBackend`
(lines 458-468): pick the device with most global memory, then run the
optimiser (abstracted as `optimize`) on that device id. -/
def createBackendNotAuto (mems : List Nat) (optimize : Int → Kernel → Nat) :
    Except OptError (Int × (Kernel → Nat)) :=
  match chooseDeviceWithMostGlobalMemory mems with
  | .error e => .error e
  | .ok d => .ok (d, optimize d)

/-- Module-compilation phase of `optimizeBlockSize` (lines 166-200),
driven by the nvcc exit statuses of the successive `system` calls: a
nonzero status throws `BuildFailure` at once (line 172), leaving the
context flag untouched, since the raw `CUcontext` handle has no
destructor to run during unwinding. -/
def processModules (ctxAlive : Bool) : List Bool → Except OptError Unit × Bool
  | [] => (.ok (), ctxAlive)
  | ok :: rest =>
    if ok then processModules ctxAlive rest
    else (.error .buildFailure, ctxAlive)

/-- Resource skeleton of one device's `optimizeBlockSize` pass
(lines 136-204): `cuCtxCreate` sets the context alive, the module loop
runs, and only the normal fall-through path reaches the `cuCtxDestroy`
of line 204; a thrown build failure propagates with the context still
alive.  The Bool of the result records whether the context is still
alive when control leaves the routine. -/
def optimizeBlockSizeTrace (compileOk : List Bool) : Except OptError Unit × Bool :=
  let ctxAlive := true
  match processModules ctxAlive compileOk with
  | (.ok _, _) => (.ok (), false)
  | (.error e, alive) => (.error e, alive)

/-- Concrete device for witnesses: compute capability 6.1, one
multiprocessor, 1024 max threads per block, 2048 per multiprocessor. -/
def dpWitness : DeviceProps :=
  ⟨6, 1, 1, 1024, 2048, 65536, 65536, 1024⟩

/-- Architecture constants of the witness device. -/
def archWitness : ArchProps := getDeviceArchitectureProperties 6 1

/-- Degenerate device for the shared-memory-limit counterexample: its
`maxThreadsPerMultiProcessor` is below one warp, so the unconstrained
block limit is already zero. -/
def dpDegenerate : DeviceProps :=
  ⟨6, 1, 1, 1024, 16, 65536, 50, 1024⟩

/-- The empty model: no neuron groups, no synapse groups, no projections
requiring a pre-synapse reset. -/
def emptyNNmodel : NNmodel := ⟨[], [], 0⟩

/-- A small concrete model for witnesses: one neuron population of size 1
requiring RNG seeding, and one projection with postsynaptic learning code
and dense individually-initialised weights. -/
def modelWitness : NNmodel :=
  ⟨[⟨1, true, false⟩], [⟨"p", 1, 1, 1, true, true, false, 1, 1⟩], 0⟩

/-! Theorems. -/

/-- C4 counterexample: the claim fails on the code.  At major version 7
the fallback constants are returned with no warning (the source only
warns when `major > 7`); major version 4, although in the 1..6 range, has
no branch of its own and receives exactly the fallback constants; and the
major-6 point variant with nonzero minor has the same constants as
major 5, so generations in 1..6 do not all have distinct constants. -/
theorem c4_arch_lookup_counterexample :
    (getDeviceArchitectureProperties 7 0).warned = false
    ∧ getDeviceArchitectureProperties 4 0 = getDeviceArchitectureProperties 7 0
    ∧ getDeviceArchitectureProperties 6 1 = getDeviceArchitectureProperties 5 0 := by
  decide

/-- C4 amended: the lookup is a total pure function; majors 1, 2, 3 and 5
have their own hard-coded constants, with minor-version point variants
for majors 1 and 6; major 6 with nonzero minor shares major 5's
constants; every major outside {1,2,3,5,6} (in particular major 4 and
every major of at least 7) receives the fallback constants
(smemAllocGran 256, warpAllocGran 4, regAllocGran 256,
maxBlocksPerSM 32); and the warning is produced exactly when the major
version exceeds 7. -/
theorem c4_arch_lookup_amended (major minor : Nat) :
    (getDeviceArchitectureProperties major minor).warned = decide (7 < major)
    ∧ (major ≠ 1 → major ≠ 2 → major ≠ 3 → major ≠ 5 → major ≠ 6 →
        getDeviceArchitectureProperties major minor = ⟨256, 4, 256, 32, decide (7 < major)⟩)
    ∧ getDeviceArchitectureProperties 1 minor
        = ⟨512, 2, if minor < 2 then 256 else 512, 8, false⟩
    ∧ getDeviceArchitectureProperties 2 minor = ⟨128, 2, 64, 8, false⟩
    ∧ getDeviceArchitectureProperties 3 minor = ⟨256, 4, 256, 16, false⟩
    ∧ getDeviceArchitectureProperties 5 minor = ⟨256, 4, 256, 32, false⟩
    ∧ getDeviceArchitectureProperties 6 minor
        = ⟨256, if minor = 0 then 2 else 4, 256, 32, false⟩
    ∧ getDeviceArchitectureProperties 4 minor = ⟨256, 4, 256, 32, false⟩ := by
  refine ⟨?_, ?_, rfl, rfl, rfl, rfl, rfl, rfl⟩
  · unfold getDeviceArchitectureProperties
    split_ifs <;> simp_all
  · intro h1 h2 h3 h5 h6
    unfold getDeviceArchitectureProperties
    split_ifs <;> simp_all

/-- C4 witness: the amended theorem applied at major 9, where the
conditional branch of the statement fires and yields the fallback
constants together with a raised warning flag. -/
theorem c4_arch_lookup_amended_witness :
    ((9 : Nat) ≠ 1 ∧ (9 : Nat) ≠ 2 ∧ (9 : Nat) ≠ 3 ∧ (9 : Nat) ≠ 5 ∧ (9 : Nat) ≠ 6)
    ∧ getDeviceArchitectureProperties 9 0 = ⟨256, 4, 256, 32, decide (7 < 9)⟩ :=
  ⟨by decide, (c4_arch_lookup_amended 9 0).2.1 (by decide) (by decide) (by decide)
      (by decide) (by decide)⟩

/-- C7 counterexample: the claim fails on the code as universally stated.
On a device whose `maxThreadsPerMultiProcessor` is below one warp, the
block limit from the thread, max-blocks and register constraints alone is
already zero, so even though the padded shared-memory estimate (256
bytes) is nonzero and exceeds the 50-byte shared-memory budget, the limit
with the shared-memory constraint (also zero) is not strictly smaller. -/
theorem c7_shared_mem_limit_counterexample :
    reqSharedMemBytesAt archWitness 0 100 (1 * warpSize) ≠ 0
    ∧ dpDegenerate.sharedMemPerMultiprocessor
        < reqSharedMemBytesAt archWitness 0 100 (1 * warpSize)
    ∧ ¬ smBlockLimit dpDegenerate archWitness 32 0 100 1
        < smBlockLimitBase dpDegenerate archWitness 32 1 := by
  decide

/-- C7 amended: at every candidate block size at which the estimated
padded shared-memory requirement is nonzero and exceeds the device's
shared memory per multiprocessor, provided the block limit computed from
the thread, max-blocks and register constraints alone is positive, the
limit with the shared-memory constraint is strictly smaller than that
unconstrained limit. -/
theorem c7_shared_mem_limit_amended (dp : DeviceProps) (arch : ArchProps)
    (reqNumRegs A B blockWarps : Nat)
    (hreq : reqSharedMemBytesAt arch A B (blockWarps * warpSize) ≠ 0)
    (hex : dp.sharedMemPerMultiprocessor < reqSharedMemBytesAt arch A B (blockWarps * warpSize))
    (hbase : 0 < smBlockLimitBase dp arch reqNumRegs blockWarps) :
    smBlockLimit dp arch reqNumRegs A B blockWarps
      < smBlockLimitBase dp arch reqNumRegs blockWarps := by
  unfold smBlockLimit
  rw [if_pos hreq, Nat.div_eq_of_lt hex]
  simpa using hbase

/-- C7 witness: on the witness device (64 KiB of shared memory would not
do, so its budget is lowered to 50 bytes) with an affine estimate of 100
bytes padded to 256, the amended theorem applies at the one-warp
candidate and the limit drops below the unconstrained value of 32. -/
theorem c7_shared_mem_limit_witness :
    (reqSharedMemBytesAt archWitness 0 100 (1 * warpSize) ≠ 0
      ∧ (50 : Nat) < reqSharedMemBytesAt archWitness 0 100 (1 * warpSize)
      ∧ 0 < smBlockLimitBase ⟨6, 1, 1, 1024, 2048, 65536, 50, 1024⟩ archWitness 32 1)
    ∧ smBlockLimit ⟨6, 1, 1, 1024, 2048, 65536, 50, 1024⟩ archWitness 32 0 100 1
        < smBlockLimitBase ⟨6, 1, 1, 1024, 2048, 65536, 50, 1024⟩ archWitness 32 1 :=
  ⟨⟨by decide, by decide, by decide⟩,
    c7_shared_mem_limit_amended ⟨6, 1, 1, 1024, 2048, 65536, 50, 1024⟩ archWitness 32 0 100 1
      (by decide) (by decide) (by decide)⟩

/-- Accumulating with repeated addition is summing: the shape shared by
the `std::accumulate` calls of the optimiser. -/
theorem foldl_add_eq_sum {α : Type} (f : α → Nat) :
    ∀ (l : List α) (n : Nat), l.foldl (fun acc x => acc + f x) n = n + (l.map f).sum
  | [], n => by simp
  | x :: xs, n => by
    rw [List.foldl_cons, foldl_add_eq_sum f xs (n + f x)]
    simp [Nat.add_assoc]

/-- The accumulated block requirement is the sum of the per-group ceiling
divisions. -/
theorem reqBlocks_eq_sum (groups : List Nat) (blockThreads : Nat) :
    reqBlocks groups blockThreads
      = (groups.map (fun g => ceilDivide g blockThreads)).sum := by
  unfold reqBlocks
  rw [foldl_add_eq_sum]
  simp

/-- Ceiling division by a larger positive divisor never needs more
blocks. -/
theorem ceilDivide_antitone {g b1 b2 : Nat} (h1 : 0 < b1) (h12 : b1 ≤ b2) :
    ceilDivide g b2 ≤ ceilDivide g b1 := by
  have hb2 : 0 < b2 := Nat.lt_of_lt_of_le h1 h12
  rcases Nat.eq_zero_or_pos g with hg | hg
  · subst hg
    have e2 : ceilDivide 0 b2 = 0 := by
      unfold ceilDivide
      exact Nat.div_eq_of_lt (by omega)
    rw [e2]
    exact Nat.zero_le _
  · have e : ∀ b, 0 < b → ceilDivide g b = (g - 1) / b + 1 := by
      intro b hb
      unfold ceilDivide
      have hgb : g + b - 1 = (g - 1) + b := by omega
      rw [hgb, Nat.add_div_right _ hb]
    rw [e b1 h1, e b2 hb2]
    exact Nat.succ_le_succ (Nat.div_le_div_left h12 h1)

/-- C6: for every workload-group sequence the computed required-block
count equals the sum of the per-group ceiling divisions by the block
size, and for a fixed sequence it is monotonically non-increasing as the
block size grows. -/
theorem c6_required_blocks (groups : List Nat) (b1 b2 : Nat)
    (h1 : 0 < b1) (h12 : b1 ≤ b2) :
    (∀ b, reqBlocks groups b = (groups.map (fun g => ceilDivide g b)).sum)
    ∧ reqBlocks groups b2 ≤ reqBlocks groups b1 := by
  refine ⟨fun b => reqBlocks_eq_sum groups b, ?_⟩
  rw [reqBlocks_eq_sum, reqBlocks_eq_sum]
  exact List.sum_le_sum fun g _ => ceilDivide_antitone h1 h12

/-- C6 witness: the theorem applied to workload groups [5, 7, 0] at block
sizes 2 and 5. -/
theorem c6_required_blocks_witness :
    ((0 : Nat) < 2 ∧ (2 : Nat) ≤ 5)
    ∧ ((∀ b, reqBlocks [5, 7, 0] b = (([5, 7, 0] : List Nat).map (fun g => ceilDivide g b)).sum)
      ∧ reqBlocks [5, 7, 0] 5 ≤ reqBlocks [5, 7, 0] 2) :=
  ⟨⟨by decide, by decide⟩, c6_required_blocks [5, 7, 0] 2 5 (by decide) (by decide)⟩

/-- The candidate loop selects the first candidate satisfying the
small-workload test: all earlier candidates only update the best-so-far
state, and at the first satisfying candidate the loop returns it marked
small with its occupancy, for every continuation of the candidate list
and every incoming state. -/
theorem searchCandidates_first_small (dp : DeviceProps) (arch : ArchProps)
    (reqNumRegs A B : Nat) (groups : List Nat) (w : Nat)
    (hw : smallWorkloadCond dp arch reqNumRegs A B groups w) :
    ∀ (pre : List Nat),
      (∀ w2 ∈ pre, ¬ smallWorkloadCond dp arch reqNumRegs A B groups w2) →
      ∀ (rest : List Nat) (s : KernelOptState),
        searchCandidates dp arch reqNumRegs A B groups (pre ++ w :: rest) s
          = ⟨w * warpSize, true, candidateOccupancy dp arch reqNumRegs A B w⟩ := by
  intro pre
  induction pre with
  | nil =>
    intro _ rest s
    rw [List.nil_append]
    simp only [searchCandidates]
    rw [if_pos hw]
  | cons p pre ih =>
    intro hpre rest s
    rw [List.cons_append]
    simp only [searchCandidates]
    rw [if_neg (hpre p (List.mem_cons_self p pre))]
    have hpre2 : ∀ w2 ∈ pre, ¬ smallWorkloadCond dp arch reqNumRegs A B groups w2 :=
      fun w2 hm => hpre w2 (List.mem_cons_of_mem p hm)
    split
    · exact ih hpre2 rest _
    · exact ih hpre2 rest s

/-- C2: if the small-workload test holds at some candidate warp count `w`
of the increasing enumeration (one warp up to the device maximum,
exclusive) and fails at every smaller candidate, then the category's
search returns exactly that candidate's block size, marked
small-workload, with the occupancy evaluated at that candidate —
independently of everything after `w` in the enumeration. -/
theorem c2_small_workload_shortcut (dp : DeviceProps) (arch : ArchProps)
    (a0 a1 : FuncAttr) (groups : List Nat) (w : Nat)
    (h1 : 1 ≤ w) (h2 : w < dp.maxThreadsPerBlock / warpSize)
    (hfirst : ∀ w2, 1 ≤ w2 → w2 < w →
      ¬ smallWorkloadCond dp arch a0.numRegs (reqSharedMemBytesA a0 a1)
          (reqSharedMemBytesB a0 a1) groups w2)
    (hw : smallWorkloadCond dp arch a0.numRegs (reqSharedMemBytesA a0 a1)
        (reqSharedMemBytesB a0 a1) groups w) :
    optimizeKernel dp arch a0 a1 groups
      = ⟨w * warpSize, true,
          candidateOccupancy dp arch a0.numRegs (reqSharedMemBytesA a0 a1)
            (reqSharedMemBytesB a0 a1) w⟩ := by
  unfold optimizeKernel
  have hsplit : List.range' 1 (dp.maxThreadsPerBlock / warpSize - 1)
      = List.range' 1 (w - 1)
        ++ w :: List.range' (w + 1) (dp.maxThreadsPerBlock / warpSize - w - 1) := by
    have e2 : dp.maxThreadsPerBlock / warpSize - 1
        = (dp.maxThreadsPerBlock / warpSize - w) + (w - 1) := by omega
    have e1 : 1 + (w - 1) = w := by omega
    have e3 : dp.maxThreadsPerBlock / warpSize - w
        = (dp.maxThreadsPerBlock / warpSize - w - 1) + 1 := by omega
    rw [e2, ← List.range'_append_1, e1, e3, List.range'_succ]
    simp
  rw [hsplit]
  exact searchCandidates_first_small dp arch a0.numRegs _ _ groups w hw
    (List.range' 1 (w - 1))
    (fun w2 hmem => by
      rw [List.mem_range'_1] at hmem
      exact hfirst w2 hmem.1 (by omega))
    _ _

/-- C2 witness: on the witness device with a zero-shared-memory kernel of
32 registers and a single 1000-thread workload group, the condition
already holds at the smallest candidate (one warp), so the search picks
block size 32 and marks it small-workload. -/
theorem c2_small_workload_shortcut_witness :
    ((1 : Nat) ≤ 1 ∧ 1 < dpWitness.maxThreadsPerBlock / warpSize
      ∧ smallWorkloadCond dpWitness archWitness (32 : Nat)
          (reqSharedMemBytesA ⟨32, 0⟩ ⟨32, 0⟩) (reqSharedMemBytesB ⟨32, 0⟩ ⟨32, 0⟩) [1000] 1)
    ∧ optimizeKernel dpWitness archWitness ⟨32, 0⟩ ⟨32, 0⟩ [1000]
        = ⟨1 * warpSize, true,
            candidateOccupancy dpWitness archWitness (32 : Nat)
              (reqSharedMemBytesA ⟨32, 0⟩ ⟨32, 0⟩) (reqSharedMemBytesB ⟨32, 0⟩ ⟨32, 0⟩) 1⟩ :=
  ⟨⟨by decide, by decide, by decide⟩,
    c2_small_workload_shortcut dpWitness archWitness ⟨32, 0⟩ ⟨32, 0⟩ [1000] 1
      (by decide) (by decide)
      (fun w2 ha hb => absurd (Nat.lt_of_le_of_lt ha hb) (Nat.lt_irrefl 1))
      (by decide)⟩

/-- Wrapping `size_t` subtraction agrees with exact subtraction when no
underflow occurs and the minuend is in range. -/
theorem sizeSub_eq_of_le {a b : Nat} (hba : b ≤ a) (ha : a < 2 ^ 64) :
    sizeSub a b = a - b := by
  unfold sizeSub
  have h64 : (2 : Nat) ^ 64 = 18446744073709551616 := by norm_num
  rw [h64] at *
  omega

/-- C5: the two probe block sizes are one warp and two warps; under the
no-underflow conditions (shared memory non-decreasing between the probes,
in `size_t` range, and an intercept that stays non-negative) the slope
and intercept computed by the code equal the claim's exact integer
formulas; and the search result is independent of the second probe's
register count, so the register count used throughout the search is the
first probe's. -/
theorem c5_affine_fit (dp : DeviceProps) (arch : ArchProps) (a0 a1 : FuncAttr)
    (groups : List Nat) (r1 : Nat)
    (hle : a0.sharedSizeBytes ≤ a1.sharedSizeBytes)
    (hlt : a1.sharedSizeBytes < 2 ^ 64)
    (hB : (a1.sharedSizeBytes - a0.sharedSizeBytes) / 32 * 32 ≤ a0.sharedSizeBytes) :
    repBlockSizes = (32, 64)
    ∧ reqSharedMemBytesA a0 a1 = (a1.sharedSizeBytes - a0.sharedSizeBytes) / (64 - 32)
    ∧ reqSharedMemBytesB a0 a1
        = a0.sharedSizeBytes - (a1.sharedSizeBytes - a0.sharedSizeBytes) / (64 - 32) * 32
    ∧ optimizeKernel dp arch a0 ⟨r1, a1.sharedSizeBytes⟩ groups
        = optimizeKernel dp arch a0 a1 groups := by
  have h0 : a0.sharedSizeBytes < 2 ^ 64 := Nat.lt_of_le_of_lt hle hlt
  have h3264 : sizeSub repBlockSizes.2 repBlockSizes.1 = 32 := by decide
  have hA : reqSharedMemBytesA a0 a1 = (a1.sharedSizeBytes - a0.sharedSizeBytes) / 32 := by
    unfold reqSharedMemBytesA
    rw [sizeSub_eq_of_le hle hlt, h3264]
  have hAle : (a1.sharedSizeBytes - a0.sharedSizeBytes) / 32 * 32 < 2 ^ 64 := by
    have hd := Nat.div_mul_le_self (a1.sharedSizeBytes - a0.sharedSizeBytes) 32
    omega
  refine ⟨rfl, by rw [hA], ?_, rfl⟩
  unfold reqSharedMemBytesB
  rw [hA]
  have h1 : repBlockSizes.1 = 32 := rfl
  rw [h1]
  rw [sizeSub_eq_of_le hB h0]

/-- C5 witness: the theorem applied to probe samples (100 bytes at 32
threads, 164 bytes at 64 threads), where the slope is 2 and the
intercept 36, with an arbitrary second-probe register count 99. -/
theorem c5_affine_fit_witness :
    ((100 : Nat) ≤ 164 ∧ (164 : Nat) < 2 ^ 64 ∧ ((164 : Nat) - 100) / 32 * 32 ≤ 100)
    ∧ (repBlockSizes = (32, 64)
      ∧ reqSharedMemBytesA ⟨10, 100⟩ ⟨20, 164⟩ = ((164 : Nat) - 100) / (64 - 32)
      ∧ reqSharedMemBytesB ⟨10, 100⟩ ⟨20, 164⟩
          = (100 : Nat) - ((164 : Nat) - 100) / (64 - 32) * 32
      ∧ optimizeKernel dpWitness archWitness ⟨10, 100⟩ ⟨99, 164⟩ [1000]
          = optimizeKernel dpWitness archWitness ⟨10, 100⟩ ⟨20, 164⟩ [1000]) :=
  ⟨⟨by decide, by decide, by decide⟩,
    c5_affine_fit dpWitness archWitness ⟨10, 100⟩ ⟨20, 164⟩ [1000] 99
      (by decide) (by decide) (by decide)⟩

/-- Reflexivity of the lexicographic key order. -/
theorem keyLe_refl (x : Nat × Nat × Nat) : keyLe x x := Or.inr rfl

/-- Inclusion of the strict order in the reflexive one. -/
theorem keyLe_of_keyLt {x y : Nat × Nat × Nat} (h : keyLt x y) : keyLe x y := Or.inl h

/-- Transitivity of the strict lexicographic key order. -/
theorem keyLt_trans {x y z : Nat × Nat × Nat} (hxy : keyLt x y) (hyz : keyLt y z) :
    keyLt x z := by
  unfold keyLt at *
  omega

/-- Strict-then-reflexive transitivity. -/
theorem keyLt_of_keyLt_of_keyLe {x y z : Nat × Nat × Nat}
    (hxy : keyLt x y) (hyz : keyLe y z) : keyLt x z := by
  rcases hyz with h | h
  · exact keyLt_trans hxy h
  · exact h ▸ hxy

/-- Reflexive-then-strict transitivity. -/
theorem keyLt_of_keyLe_of_keyLt {x y z : Nat × Nat × Nat}
    (hxy : keyLe x y) (hyz : keyLt y z) : keyLt x z := by
  rcases hxy with h | h
  · exact keyLt_trans h hyz
  · exact h ▸ hyz

/-- Transitivity of the reflexive key order. -/
theorem keyLe_trans {x y z : Nat × Nat × Nat} (hxy : keyLe x y) (hyz : keyLe y z) :
    keyLe x z := by
  rcases hxy with h | h
  · exact keyLe_of_keyLt (keyLt_of_keyLt_of_keyLe h hyz)
  · exact h ▸ hyz

/-- The comparator of the source answers true exactly when the right
entry's ranking key is lexicographically below the left entry's: the
code's comparator is the spec's ranking order. -/
theorem isBetterDevice_true_iff (a b : DeviceEntry) :
    isBetterDevice a b = true ↔ keyLt (deviceKey b) (deviceKey a) := by
  unfold isBetterDevice keyLt deviceKey
  split_ifs <;> simp <;> omega

/-- The comparator answers false exactly when the left entry's key is
lexicographically at most the right entry's (totality of the order). -/
theorem isBetterDevice_false_iff (a b : DeviceEntry) :
    isBetterDevice a b = false ↔ keyLe (deviceKey a) (deviceKey b) := by
  rw [← Bool.not_eq_true, isBetterDevice_true_iff]
  unfold keyLe keyLt deviceKey
  simp only [Prod.mk.injEq]
  omega

/-- Indexing commutes with building the summary entries. -/
theorem getD_map_mk :
    ∀ (l : List DeviceOptResult) (j : Nat), j < l.length →
      (l.map mkDeviceEntry).getD j default = mkDeviceEntry (l.getD j default)
  | [], _, h => absurd h (by simp)
  | _ :: _, 0, _ => rfl
  | _ :: xs, j + 1, h => by
    simp only [List.map_cons, List.getD_cons_succ]
    exact getD_map_mk xs j (by simpa using h)

/-- An in-range `getD` is a member of the list. -/
theorem getD_mem_of_lt :
    ∀ (l : List DeviceEntry) (j : Nat), j < l.length → l.getD j default ∈ l
  | [], j, h => absurd h (by simp)
  | x :: xs, 0, _ => List.mem_cons_self x xs
  | x :: xs, j + 1, h =>
    List.mem_cons_of_mem x (getD_mem_of_lt xs j (by simpa using h))

/-- Behaviour of the `std::min_element` scan: the returned entry's key
dominates the initial best and every scanned entry, and either the
initial best survives with its index, or the winner is the first scanned
entry with a strictly larger key than everything before it. -/
theorem chooseBestAux_spec :
    ∀ (l : List DeviceEntry) (bi : Nat) (b : DeviceEntry) (i : Nat),
      (∀ e ∈ l, keyLe (deviceKey e) (deviceKey (chooseBestAux l bi b i).2))
      ∧ keyLe (deviceKey b) (deviceKey (chooseBestAux l bi b i).2)
      ∧ ((chooseBestAux l bi b i).2 = b ∧ (chooseBestAux l bi b i).1 = bi
        ∨ ∃ j, j < l.length
            ∧ (chooseBestAux l bi b i).2 = l.getD j default
            ∧ (chooseBestAux l bi b i).1 = i + j
            ∧ keyLt (deviceKey b) (deviceKey (chooseBestAux l bi b i).2)
            ∧ ∀ j2, j2 < j →
                keyLt (deviceKey (l.getD j2 default))
                  (deviceKey (chooseBestAux l bi b i).2)) := by
  intro l
  induction l with
  | nil =>
    intro bi b i
    exact ⟨by simp, keyLe_refl _, Or.inl ⟨rfl, rfl⟩⟩
  | cons e es ih =>
    intro bi b i
    by_cases hbe : isBetterDevice e b = true
    · have hstep : chooseBestAux (e :: es) bi b i = chooseBestAux es i e (i + 1) := by
        simp [chooseBestAux, hbe]
      rw [hstep]
      obtain ⟨ih1, ih2, ih3⟩ := ih i e (i + 1)
      have hlt : keyLt (deviceKey b) (deviceKey e) := (isBetterDevice_true_iff e b).mp hbe
      refine ⟨?_, keyLe_of_keyLt (keyLt_of_keyLt_of_keyLe hlt ih2), Or.inr ?_⟩
      · intro f hf
        rcases List.mem_cons.mp hf with rfl | hf2
        · exact ih2
        · exact ih1 f hf2
      · rcases ih3 with ⟨h2, h1⟩ | ⟨j, hj, hr2, hr1, hlt2, hprev⟩
        · refine ⟨0, by simp, by simpa using h2, by simpa using h1, ?_, ?_⟩
          · rw [h2]
            exact hlt
          · intro j2 hj2
            exact absurd hj2 (Nat.not_lt_zero j2)
        · refine ⟨j + 1, by simp only [List.length_cons]; omega, by simpa using hr2,
            by omega, keyLt_trans hlt hlt2, ?_⟩
          intro j2 hj2
          cases j2 with
          | zero =>
            simp only [List.getD_cons_zero]
            exact hlt2
          | succ j3 =>
            simp only [List.getD_cons_succ]
            exact hprev j3 (by omega)
    · have hbe2 : isBetterDevice e b = false := by simpa using hbe
      have hstep : chooseBestAux (e :: es) bi b i = chooseBestAux es bi b (i + 1) := by
        simp [chooseBestAux, hbe2]
      rw [hstep]
      obtain ⟨ih1, ih2, ih3⟩ := ih bi b (i + 1)
      have hle : keyLe (deviceKey e) (deviceKey b) := (isBetterDevice_false_iff e b).mp hbe2
      refine ⟨?_, ih2, ?_⟩
      · intro f hf
        rcases List.mem_cons.mp hf with rfl | hf2
        · exact keyLe_trans hle ih2
        · exact ih1 f hf2
      · rcases ih3 with ⟨h2, h1⟩ | ⟨j, hj, hr2, hr1, hlt2, hprev⟩
        · exact Or.inl ⟨h2, h1⟩
        · right
          refine ⟨j + 1, by simp only [List.length_cons]; omega, by simpa using hr2,
            by omega, hlt2, ?_⟩
          intro j2 hj2
          cases j2 with
          | zero =>
            simp only [List.getD_cons_zero]
            exact keyLt_of_keyLe_of_keyLt hle hlt2
          | succ j3 =>
            simp only [List.getD_cons_succ]
            exact hprev j3 (by omega)

/-- The accumulated total occupancy is the sum of the per-kernel
occupancy scores. -/
theorem totalOccupancy_eq (ks : List KernelOpt) :
    totalOccupancy ks = (ks.map KernelOpt.occupancy).sum := by
  unfold totalOccupancy
  rw [foldl_add_eq_sum]
  simp

/-- Accumulating conditional ones counts the satisfying elements,
generalised over the accumulator. -/
theorem numSmall_foldl :
    ∀ (ks : List KernelOpt) (n : Nat),
      ks.foldl (fun acc k => acc + if k.small then 1 else 0) n
        = n + (ks.filter (fun k => k.small)).length
  | [], n => by simp
  | k :: ks, n => by
    rw [List.foldl_cons, numSmall_foldl ks]
    by_cases hk : k.small
    · simp only [hk, if_true, List.filter_cons, List.length_cons]
      omega
    · simp only [hk, List.filter_cons]
      simp [hk]

/-- The accumulated small-model count is the number of kernels whose
small-workload flag is set. -/
theorem numSmallModelKernels_eq (ks : List KernelOpt) :
    numSmallModelKernels ks = (ks.filter (fun k => k.small)).length := by
  unfold numSmallModelKernels
  rw [numSmall_foldl]
  simp

/-- C1: with automatic device choice, the selector returns the index of a
device whose ranking key — (small-workload-kernel count, total occupancy,
major*10+minor), ordered lexicographically — is maximal among all
devices, every earlier device being strictly below it (first-encountered
tie-breaking), together with exactly that device's block-size assignment;
and the key components are the count of small-flagged kernels and the sum
of the per-kernel occupancy scores. -/
theorem c1_choose_optimal_device (rs : List DeviceOptResult) (h : rs ≠ []) :
    ∃ i bs, chooseOptimalDevice rs = Except.ok (i, bs)
      ∧ i < rs.length
      ∧ bs = (rs.getD i default).blockSize
      ∧ (∀ j, j < rs.length →
          keyLe (deviceKey (mkDeviceEntry (rs.getD j default)))
            (deviceKey (mkDeviceEntry (rs.getD i default))))
      ∧ (∀ j, j < i →
          keyLt (deviceKey (mkDeviceEntry (rs.getD j default)))
            (deviceKey (mkDeviceEntry (rs.getD i default))))
      ∧ (∀ r0 : DeviceOptResult, deviceKey (mkDeviceEntry r0)
          = (numSmallModelKernels r0.kernels, totalOccupancy r0.kernels,
              r0.major * 10 + r0.minor))
      ∧ (∀ ks : List KernelOpt,
          totalOccupancy ks = (ks.map KernelOpt.occupancy).sum
          ∧ numSmallModelKernels ks = (ks.filter (fun k => k.small)).length) := by
  cases rs with
  | nil => exact absurd rfl h
  | cons r rt =>
    obtain ⟨s1, s2, s3⟩ := chooseBestAux_spec (rt.map mkDeviceEntry) 0 (mkDeviceEntry r) 1
    have hchoose : chooseOptimalDevice (r :: rt)
        = Except.ok ((chooseBestAux (rt.map mkDeviceEntry) 0 (mkDeviceEntry r) 1).1,
            (chooseBestAux (rt.map mkDeviceEntry) 0 (mkDeviceEntry r) 1).2.blockSize) := rfl
    rcases s3 with ⟨h2, h1⟩ | ⟨j, hj, hr2, hr1, hlt2, hprev⟩
    · refine ⟨0, (chooseBestAux (rt.map mkDeviceEntry) 0 (mkDeviceEntry r) 1).2.blockSize,
        by rw [hchoose, h1], by simp, by rw [h2]; rfl, ?_, ?_, fun _ => rfl,
        fun ks => ⟨totalOccupancy_eq ks, numSmallModelKernels_eq ks⟩⟩
      · intro j2 hjl
        cases j2 with
        | zero => exact keyLe_refl _
        | succ k =>
          have hk : k < rt.length := by
            simp only [List.length_cons] at hjl
            omega
          have hm := s1 ((rt.map mkDeviceEntry).getD k default)
            (getD_mem_of_lt _ k (by simpa using hk))
          rw [getD_map_mk rt k hk, h2] at hm
          simpa using hm
      · intro j2 hj2
        exact absurd hj2 (Nat.not_lt_zero j2)
    · have hj2 : j < rt.length := by simpa using hj
      have hp2 : (chooseBestAux (rt.map mkDeviceEntry) 0 (mkDeviceEntry r) 1).2
          = mkDeviceEntry (rt.getD j default) := by
        rw [hr2, getD_map_mk rt j hj2]
      have hidx : (1 : Nat) + j = j + 1 := by omega
      refine ⟨1 + j, (chooseBestAux (rt.map mkDeviceEntry) 0 (mkDeviceEntry r) 1).2.blockSize,
        by rw [hchoose, hr1], by simp only [List.length_cons]; omega, ?_, ?_, ?_, fun _ => rfl,
        fun ks => ⟨totalOccupancy_eq ks, numSmallModelKernels_eq ks⟩⟩
      · rw [hp2, hidx, List.getD_cons_succ]
        rfl
      · intro k hkl
        have hgoal2 : ((r :: rt).getD (1 + j) default) = rt.getD j default := by
          rw [hidx, List.getD_cons_succ]
        rw [hgoal2]
        cases k with
        | zero =>
          rw [List.getD_cons_zero]
          exact keyLe_of_keyLt (hp2 ▸ hlt2)
        | succ k2 =>
          have hk2 : k2 < rt.length := by
            simp only [List.length_cons] at hkl
            omega
          have hm := s1 ((rt.map mkDeviceEntry).getD k2 default)
            (getD_mem_of_lt _ k2 (by simpa using hk2))
          rw [getD_map_mk rt k2 hk2, hp2] at hm
          simpa using hm
      · intro k hkl
        have hgoal2 : ((r :: rt).getD (1 + j) default) = rt.getD j default := by
          rw [hidx, List.getD_cons_succ]
        rw [hgoal2]
        cases k with
        | zero =>
          rw [List.getD_cons_zero]
          exact hp2 ▸ hlt2
        | succ k2 =>
          have hk2 : k2 < j := by omega
          have hm := hprev k2 hk2
          rw [getD_map_mk rt k2 (by omega), hp2] at hm
          simpa using hm

/-- C1 witness: the selection theorem applied to a two-device list whose
second device has the better ranking key. -/
theorem c1_choose_optimal_device_witness :
    (([⟨6, 1, [⟨false, 16⟩], fun _ => 64⟩, ⟨5, 2, [⟨true, 32⟩], fun _ => 32⟩]
        : List DeviceOptResult) ≠ [])
    ∧ ∃ i bs, chooseOptimalDevice
          [⟨6, 1, [⟨false, 16⟩], fun _ => 64⟩, ⟨5, 2, [⟨true, 32⟩], fun _ => 32⟩]
          = Except.ok (i, bs)
      ∧ i < ([⟨6, 1, [⟨false, 16⟩], fun _ => 64⟩, ⟨5, 2, [⟨true, 32⟩], fun _ => 32⟩]
          : List DeviceOptResult).length
      ∧ bs = (([⟨6, 1, [⟨false, 16⟩], fun _ => 64⟩, ⟨5, 2, [⟨true, 32⟩], fun _ => 32⟩]
          : List DeviceOptResult).getD i default).blockSize
      ∧ (∀ j, j < ([⟨6, 1, [⟨false, 16⟩], fun _ => 64⟩, ⟨5, 2, [⟨true, 32⟩], fun _ => 32⟩]
            : List DeviceOptResult).length →
          keyLe (deviceKey (mkDeviceEntry
              (([⟨6, 1, [⟨false, 16⟩], fun _ => 64⟩, ⟨5, 2, [⟨true, 32⟩], fun _ => 32⟩]
                : List DeviceOptResult).getD j default)))
            (deviceKey (mkDeviceEntry
              (([⟨6, 1, [⟨false, 16⟩], fun _ => 64⟩, ⟨5, 2, [⟨true, 32⟩], fun _ => 32⟩]
                : List DeviceOptResult).getD i default))))
      ∧ (∀ j, j < i →
          keyLt (deviceKey (mkDeviceEntry
              (([⟨6, 1, [⟨false, 16⟩], fun _ => 64⟩, ⟨5, 2, [⟨true, 32⟩], fun _ => 32⟩]
                : List DeviceOptResult).getD j default)))
            (deviceKey (mkDeviceEntry
              (([⟨6, 1, [⟨false, 16⟩], fun _ => 64⟩, ⟨5, 2, [⟨true, 32⟩], fun _ => 32⟩]
                : List DeviceOptResult).getD i default))))
      ∧ (∀ r0 : DeviceOptResult, deviceKey (mkDeviceEntry r0)
          = (numSmallModelKernels r0.kernels, totalOccupancy r0.kernels,
              r0.major * 10 + r0.minor))
      ∧ (∀ ks : List KernelOpt,
          totalOccupancy ks = (ks.map KernelOpt.occupancy).sum
          ∧ numSmallModelKernels ks = (ks.filter (fun k => k.small)).length) :=
  ⟨List.cons_ne_nil _ _,
    c1_choose_optimal_device
      [⟨6, 1, [⟨false, 16⟩], fun _ => 64⟩, ⟨5, 2, [⟨true, 32⟩], fun _ => 32⟩]
      (List.cons_ne_nil _ _)⟩

/-- A scan prefix in which no element exceeds the running maximum leaves
the best device and best memory unchanged, only advancing the index. -/
theorem mostMem_foldl_const :
    ∀ (l : List Nat) (b : Int) (most d : Nat),
      (∀ x ∈ l, x ≤ most) →
      l.foldl mostMemStep (b, most, d) = (b, most, d + l.length)
  | [], b, most, d, _ => by simp
  | x :: xs, b, most, d, h => by
    have hx : ¬ x > most := by
      have := h x (List.mem_cons_self x xs)
      omega
    rw [List.foldl_cons,
      show mostMemStep (b, most, d) x = (b, most, d + 1) from by simp [mostMemStep, hx],
      mostMem_foldl_const xs b most (d + 1) (fun y hy => h y (List.mem_cons_of_mem x hy))]
    have he : d + 1 + xs.length = d + (x :: xs).length := by
      simp only [List.length_cons]
      omega
    rw [he]

/-- Every member of a list of sizes is an in-range `getD`. -/
theorem mem_exists_getD :
    ∀ (l : List Nat) (y : Nat), y ∈ l → ∃ k, k < l.length ∧ l.getD k 0 = y
  | [], y, hy => absurd hy (List.not_mem_nil y)
  | x :: xs, y, hy => by
    rcases List.mem_cons.mp hy with rfl | h2
    · exact ⟨0, by simp, rfl⟩
    · obtain ⟨k, hk, he⟩ := mem_exists_getD xs y h2
      exact ⟨k + 1, by simp only [List.length_cons]; omega, by simpa using he⟩

/-- The scan of `chooseDeviceWithMostGlobalMemory` returns the index of
the first occurrence of the maximum, whenever that maximum strictly
exceeds the incoming running maximum. -/
theorem mostMem_foldl_first_max :
    ∀ (l : List Nat) (b : Int) (most d i : Nat),
      i < l.length →
      most < l.getD i 0 →
      (∀ j, j < l.length → l.getD j 0 ≤ l.getD i 0) →
      (∀ j, j < i → l.getD j 0 < l.getD i 0) →
      (l.foldl mostMemStep (b, most, d)).1 = Int.ofNat (d + i)
  | [], _, _, _, i, hi, _, _, _ => absurd hi (by simp)
  | x :: xs, b, most, d, i, hi, hmosti, hmax, hfirst => by
    cases i with
    | zero =>
      have hx : x > most := by simpa using hmosti
      rw [List.foldl_cons,
        show mostMemStep (b, most, d) x = (Int.ofNat d, x, d + 1) from by
          simp [mostMemStep, hx]]
      have hall : ∀ y ∈ xs, y ≤ x := by
        intro y hy
        obtain ⟨k, hk, he⟩ := mem_exists_getD xs y hy
        rw [← he]
        have := hmax (k + 1) (by simp only [List.length_cons]; omega)
        simpa using this
      rw [mostMem_foldl_const xs (Int.ofNat d) x (d + 1) hall]
      simp
    | succ i2 =>
      have hi2 : i2 < xs.length := by simpa using hi
      have hmax2 : ∀ j, j < xs.length → xs.getD j 0 ≤ xs.getD i2 0 := by
        intro j hj
        have := hmax (j + 1) (by simp only [List.length_cons]; omega)
        simpa using this
      have hfirst2 : ∀ j, j < i2 → xs.getD j 0 < xs.getD i2 0 := by
        intro j hj
        have := hfirst (j + 1) (by omega)
        simpa using this
      have hx0 : x < xs.getD i2 0 := by
        have := hfirst 0 (Nat.succ_pos i2)
        simpa using this
      rw [List.foldl_cons]
      by_cases hxm : x > most
      · rw [show mostMemStep (b, most, d) x = (Int.ofNat d, x, d + 1) from by
          simp [mostMemStep, hxm]]
        rw [mostMem_foldl_first_max xs (Int.ofNat d) x (d + 1) i2 hi2 hx0 hmax2 hfirst2]
        congr 1
        omega
      · rw [show mostMemStep (b, most, d) x = (b, most, d + 1) from by
          simp [mostMemStep, hxm]]
        have hmost2 : most < xs.getD i2 0 := by simpa using hmosti
        rw [mostMem_foldl_first_max xs b most (d + 1) i2 hi2 hmost2 hmax2 hfirst2]
        congr 1
        omega

/-- C3 counterexample: the claim fails on the code.  With one visible
device whose reported global memory is zero, the selector does not fail —
but it returns -1, which is not a valid device index, because the scan
only replaces the initial best index -1 on a strict improvement over the
initial zero running maximum. -/
theorem c3_most_memory_counterexample :
    chooseDeviceWithMostGlobalMemory [0] = Except.ok (-1) ∧ (-1 : Int) < 0 :=
  ⟨rfl, by decide⟩

/-- C3 amended: the selector fails with NoDeviceFound exactly when no
device is visible; on every non-empty device list it returns without
failing; when every device reports zero global memory the returned id is
-1 (not a valid index); when some device has positive memory, the
returned id is the first index attaining the maximum memory; and the
non-auto backend path pairs the chosen id with the optimiser's assignment
for that device. -/
theorem c3_most_memory_amended (mems : List Nat) (hne : mems ≠ []) :
    (∀ ms : List Nat,
      chooseDeviceWithMostGlobalMemory ms = Except.error OptError.noDeviceFound ↔ ms = [])
    ∧ (∃ d : Int, chooseDeviceWithMostGlobalMemory mems = Except.ok d)
    ∧ ((∀ x ∈ mems, x = 0) → chooseDeviceWithMostGlobalMemory mems = Except.ok (-1))
    ∧ (∀ i, i < mems.length → 0 < mems.getD i 0 →
        (∀ j, j < mems.length → mems.getD j 0 ≤ mems.getD i 0) →
        (∀ j, j < i → mems.getD j 0 < mems.getD i 0) →
        chooseDeviceWithMostGlobalMemory mems = Except.ok (Int.ofNat i))
    ∧ (∀ (optimize : Int → Kernel → Nat) (d : Int),
        chooseDeviceWithMostGlobalMemory mems = Except.ok d →
        createBackendNotAuto mems optimize = Except.ok (d, optimize d)) := by
  have hlen : ¬ mems.length = 0 := by
    cases mems with
    | nil => exact absurd rfl hne
    | cons x xs => simp
  refine ⟨?_, ?_, ?_, ?_, ?_⟩
  · intro ms
    cases ms with
    | nil => simp [chooseDeviceWithMostGlobalMemory]
    | cons x xs => simp [chooseDeviceWithMostGlobalMemory]
  · exact ⟨_, by unfold chooseDeviceWithMostGlobalMemory; rw [if_neg hlen]⟩
  · intro hz
    unfold chooseDeviceWithMostGlobalMemory
    rw [if_neg hlen,
      mostMem_foldl_const mems (-1) 0 0 (fun x hx => by rw [hz x hx])]
  · intro i hi hpos hmax hfirst
    unfold chooseDeviceWithMostGlobalMemory
    rw [if_neg hlen, mostMem_foldl_first_max mems (-1) 0 0 i hi hpos hmax hfirst]
    simp
  · intro optimize d hd
    unfold createBackendNotAuto
    rw [hd]

/-- C3 witness: the amended theorem applied to the memory list [5, 7, 3],
whose unique maximum 7 sits at index 1. -/
theorem c3_most_memory_amended_witness :
    (([5, 7, 3] : List Nat) ≠ [])
    ∧ ((∀ ms : List Nat,
        chooseDeviceWithMostGlobalMemory ms = Except.error OptError.noDeviceFound ↔ ms = [])
      ∧ (∃ d : Int, chooseDeviceWithMostGlobalMemory [5, 7, 3] = Except.ok d)
      ∧ ((∀ x ∈ ([5, 7, 3] : List Nat), x = 0) →
          chooseDeviceWithMostGlobalMemory [5, 7, 3] = Except.ok (-1))
      ∧ (∀ i, i < ([5, 7, 3] : List Nat).length → 0 < ([5, 7, 3] : List Nat).getD i 0 →
          (∀ j, j < ([5, 7, 3] : List Nat).length →
            ([5, 7, 3] : List Nat).getD j 0 ≤ ([5, 7, 3] : List Nat).getD i 0) →
          (∀ j, j < i → ([5, 7, 3] : List Nat).getD j 0 < ([5, 7, 3] : List Nat).getD i 0) →
          chooseDeviceWithMostGlobalMemory [5, 7, 3] = Except.ok (Int.ofNat i))
      ∧ (∀ (optimize : Int → Kernel → Nat) (d : Int),
          chooseDeviceWithMostGlobalMemory [5, 7, 3] = Except.ok d →
          createBackendNotAuto [5, 7, 3] optimize = Except.ok (d, optimize d))) :=
  ⟨by simp, c3_most_memory_amended [5, 7, 3] (by simp)⟩

/-- Pushing onto a category appends to that category's list. -/
theorem pushGroup_same (g : GroupSizes) (k : Kernel) (n : Nat) :
    pushGroup g k n k = g k ++ [n] := by
  simp [pushGroup]

/-- Pushing onto a category leaves every other category unchanged. -/
theorem pushGroup_other (g : GroupSizes) (k : Kernel) (n : Nat) (k2 : Kernel)
    (h : k2 ≠ k) : pushGroup g k n k2 = g k2 := by
  simp [pushGroup, h]

/-- The neuron-group loop appends each population size to NeuronUpdate. -/
theorem nfold_neuronUpdate :
    ∀ (l : List NeuronGroup) (g : GroupSizes),
      (l.foldl addNeuronGroup g) Kernel.KernelNeuronUpdate
        = g Kernel.KernelNeuronUpdate ++ l.map NeuronGroup.numNeurons
  | [], g => by simp
  | n :: l, g => by
    rw [List.foldl_cons, nfold_neuronUpdate l]
    have hstep : (addNeuronGroup g n) Kernel.KernelNeuronUpdate
        = g Kernel.KernelNeuronUpdate ++ [n.numNeurons] := by
      unfold addNeuronGroup
      split_ifs <;> simp [pushGroup]
    rw [hstep]
    simp

/-- The neuron-group loop appends the size of each population requiring
device initialisation to Initialize. -/
theorem nfold_initializeGroups :
    ∀ (l : List NeuronGroup) (g : GroupSizes),
      (l.foldl addNeuronGroup g) Kernel.KernelInitialize
        = g Kernel.KernelInitialize
          ++ (l.filter (fun n => n.simRNGRequired || n.initCodeRequired)).map
              NeuronGroup.numNeurons
  | [], g => by simp
  | n :: l, g => by
    rw [List.foldl_cons, nfold_initializeGroups l]
    by_cases hc : (n.simRNGRequired || n.initCodeRequired) = true
    · have hstep : (addNeuronGroup g n) Kernel.KernelInitialize
          = g Kernel.KernelInitialize ++ [n.numNeurons] := by
        unfold addNeuronGroup
        simp [hc, pushGroup]
      rw [hstep]
      simp [List.filter_cons, hc]
    · have hstep : (addNeuronGroup g n) Kernel.KernelInitialize
          = g Kernel.KernelInitialize := by
        unfold addNeuronGroup
        simp [hc, pushGroup]
      rw [hstep]
      simp [List.filter_cons, hc]

/-- The neuron-group loop touches no category other than NeuronUpdate and
Initialize. -/
theorem nfold_other :
    ∀ (l : List NeuronGroup) (g : GroupSizes) (k : Kernel),
      k ≠ Kernel.KernelNeuronUpdate → k ≠ Kernel.KernelInitialize →
      (l.foldl addNeuronGroup g) k = g k
  | [], _, _, _, _ => rfl
  | n :: l, g, k, h1, h2 => by
    rw [List.foldl_cons, nfold_other l _ k h1 h2]
    unfold addNeuronGroup
    split_ifs <;> simp [pushGroup, h1, h2]

/-- The synapse-group loop appends every projection's presynaptic thread
estimate to PresynapticUpdate, unconditionally. -/
theorem addSynapseGroup_presyn (g : GroupSizes) (s : SynapseGroup) :
    (addSynapseGroup g s) Kernel.KernelPresynapticUpdate
      = g Kernel.KernelPresynapticUpdate ++ [s.numPresynapticUpdateThreads] := by
  unfold addSynapseGroup
  split_ifs <;> simp [pushGroup]

/-- One synapse step's effect on PostsynapticUpdate: a contribution
exactly when the postsynaptic learning code is non-empty. -/
theorem addSynapseGroup_postsyn (g : GroupSizes) (s : SynapseGroup) :
    (addSynapseGroup g s) Kernel.KernelPostsynapticUpdate
      = g Kernel.KernelPostsynapticUpdate
        ++ (if !s.learnPostCode.isEmpty then [s.numPostsynapticUpdateThreads] else []) := by
  unfold addSynapseGroup
  split_ifs <;> simp_all [pushGroup]

/-- One synapse step's effect on SynapseDynamicsUpdate: a contribution
under the same non-empty-learn-code condition as PostsynapticUpdate. -/
theorem addSynapseGroup_syndyn (g : GroupSizes) (s : SynapseGroup) :
    (addSynapseGroup g s) Kernel.KernelSynapseDynamicsUpdate
      = g Kernel.KernelSynapseDynamicsUpdate
        ++ (if !s.learnPostCode.isEmpty then [s.numSynapseDynamicsThreads] else []) := by
  unfold addSynapseGroup
  split_ifs <;> simp_all [pushGroup]

/-- One synapse step's effect on Initialize: the dense product
contribution when the projection has individually-initialised non-sparse
weights. -/
theorem addSynapseGroup_init (g : GroupSizes) (s : SynapseGroup) :
    (addSynapseGroup g s) Kernel.KernelInitialize
      = g Kernel.KernelInitialize
        ++ (if s.matrixWeightIndividual && s.wuVarInitRequired && !s.matrixConnectivitySparse
            then [s.srcNumNeurons * s.trgNumNeurons] else []) := by
  unfold addSynapseGroup
  split_ifs <;> simp_all [pushGroup]

/-- One synapse step's effect on InitializeSparse: the source-population
contribution when the projection has individually-initialised sparse
weights. -/
theorem addSynapseGroup_initSparse (g : GroupSizes) (s : SynapseGroup) :
    (addSynapseGroup g s) Kernel.KernelInitializeSparse
      = g Kernel.KernelInitializeSparse
        ++ (if s.matrixWeightIndividual && s.wuVarInitRequired && s.matrixConnectivitySparse
            then [s.srcNumNeurons] else []) := by
  unfold addSynapseGroup
  split_ifs <;> simp_all [pushGroup]

/-- One synapse step touches none of the remaining categories. -/
theorem addSynapseGroup_other (g : GroupSizes) (s : SynapseGroup) (k : Kernel)
    (h1 : k ≠ Kernel.KernelPresynapticUpdate) (h2 : k ≠ Kernel.KernelPostsynapticUpdate)
    (h3 : k ≠ Kernel.KernelSynapseDynamicsUpdate) (h4 : k ≠ Kernel.KernelInitialize)
    (h5 : k ≠ Kernel.KernelInitializeSparse) :
    (addSynapseGroup g s) k = g k := by
  unfold addSynapseGroup
  split_ifs <;> simp [pushGroup, h1, h2, h3, h4, h5]

/-- Synapse-loop characterisation of PresynapticUpdate. -/
theorem sfold_presyn :
    ∀ (l : List SynapseGroup) (g : GroupSizes),
      (l.foldl addSynapseGroup g) Kernel.KernelPresynapticUpdate
        = g Kernel.KernelPresynapticUpdate
          ++ l.map SynapseGroup.numPresynapticUpdateThreads
  | [], g => by simp
  | s :: l, g => by
    rw [List.foldl_cons, sfold_presyn l, addSynapseGroup_presyn]
    simp

/-- Synapse-loop characterisation of PostsynapticUpdate: the projections
with non-empty postsynaptic learning code, in order. -/
theorem sfold_postsyn :
    ∀ (l : List SynapseGroup) (g : GroupSizes),
      (l.foldl addSynapseGroup g) Kernel.KernelPostsynapticUpdate
        = g Kernel.KernelPostsynapticUpdate
          ++ (l.filter (fun s => !s.learnPostCode.isEmpty)).map
              SynapseGroup.numPostsynapticUpdateThreads
  | [], g => by simp
  | s :: l, g => by
    rw [List.foldl_cons, sfold_postsyn l, addSynapseGroup_postsyn]
    by_cases hc : (!s.learnPostCode.isEmpty) = true <;>
      simp [hc, List.filter_cons]

/-- Synapse-loop characterisation of SynapseDynamicsUpdate: the same
filter as PostsynapticUpdate. -/
theorem sfold_syndyn :
    ∀ (l : List SynapseGroup) (g : GroupSizes),
      (l.foldl addSynapseGroup g) Kernel.KernelSynapseDynamicsUpdate
        = g Kernel.KernelSynapseDynamicsUpdate
          ++ (l.filter (fun s => !s.learnPostCode.isEmpty)).map
              SynapseGroup.numSynapseDynamicsThreads
  | [], g => by simp
  | s :: l, g => by
    rw [List.foldl_cons, sfold_syndyn l, addSynapseGroup_syndyn]
    by_cases hc : (!s.learnPostCode.isEmpty) = true <;>
      simp [hc, List.filter_cons]

/-- Synapse-loop characterisation of Initialize. -/
theorem sfold_init :
    ∀ (l : List SynapseGroup) (g : GroupSizes),
      (l.foldl addSynapseGroup g) Kernel.KernelInitialize
        = g Kernel.KernelInitialize
          ++ (l.filter (fun s =>
                s.matrixWeightIndividual && s.wuVarInitRequired
                  && !s.matrixConnectivitySparse)).map
              (fun s => s.srcNumNeurons * s.trgNumNeurons)
  | [], g => by simp
  | s :: l, g => by
    rw [List.foldl_cons, sfold_init l, addSynapseGroup_init]
    by_cases hc : (s.matrixWeightIndividual && s.wuVarInitRequired
        && !s.matrixConnectivitySparse) = true <;>
      simp [hc, List.filter_cons]

/-- Synapse-loop characterisation of InitializeSparse. -/
theorem sfold_initSparse :
    ∀ (l : List SynapseGroup) (g : GroupSizes),
      (l.foldl addSynapseGroup g) Kernel.KernelInitializeSparse
        = g Kernel.KernelInitializeSparse
          ++ (l.filter (fun s =>
                s.matrixWeightIndividual && s.wuVarInitRequired
                  && s.matrixConnectivitySparse)).map
              SynapseGroup.srcNumNeurons
  | [], g => by simp
  | s :: l, g => by
    rw [List.foldl_cons, sfold_initSparse l, addSynapseGroup_initSparse]
    by_cases hc : (s.matrixWeightIndividual && s.wuVarInitRequired
        && s.matrixConnectivitySparse) = true <;>
      simp [hc, List.filter_cons]

/-- The synapse loop touches none of the remaining categories. -/
theorem sfold_other :
    ∀ (l : List SynapseGroup) (g : GroupSizes) (k : Kernel),
      k ≠ Kernel.KernelPresynapticUpdate → k ≠ Kernel.KernelPostsynapticUpdate →
      k ≠ Kernel.KernelSynapseDynamicsUpdate → k ≠ Kernel.KernelInitialize →
      k ≠ Kernel.KernelInitializeSparse →
      (l.foldl addSynapseGroup g) k = g k
  | [], _, _, _, _, _, _, _ => rfl
  | s :: l, g, k, h1, h2, h3, h4, h5 => by
    rw [List.foldl_cons, sfold_other l _ k h1 h2 h3 h4 h5]
    exact addSynapseGroup_other g s k h1 h2 h3 h4 h5

/-- C8: for every model, the workload sizer contributes a presynaptic
thread estimate for every projection unconditionally, and contributes to
PostsynapticUpdate and to SynapseDynamicsUpdate exactly for the
projections whose postsynaptic learning code is non-empty — the same
condition governing both categories. -/
theorem c8_synapse_contributions (m : NNmodel) :
    calcGroupSizes m Kernel.KernelPresynapticUpdate
      = m.localSynapseGroups.map SynapseGroup.numPresynapticUpdateThreads
    ∧ calcGroupSizes m Kernel.KernelPostsynapticUpdate
      = (m.localSynapseGroups.filter (fun s => !s.learnPostCode.isEmpty)).map
          SynapseGroup.numPostsynapticUpdateThreads
    ∧ calcGroupSizes m Kernel.KernelSynapseDynamicsUpdate
      = (m.localSynapseGroups.filter (fun s => !s.learnPostCode.isEmpty)).map
          SynapseGroup.numSynapseDynamicsThreads := by
  unfold calcGroupSizes
  refine ⟨?_, ?_, ?_⟩ <;>
    rw [pushGroup_other _ _ _ _ (by decide), pushGroup_other _ _ _ _ (by decide)]
  · rw [sfold_presyn, nfold_other _ _ _ (by decide) (by decide)]
    simp [emptyGroupSizes]
  · rw [sfold_postsyn, nfold_other _ _ _ (by decide) (by decide)]
    simp [emptyGroupSizes]
  · rw [sfold_syndyn, nfold_other _ _ _ (by decide) (by decide)]
    simp [emptyGroupSizes]

/-- Characterisation of NeuronUpdate: every population's size, in order. -/
theorem calc_neuronUpdate (m : NNmodel) :
    calcGroupSizes m Kernel.KernelNeuronUpdate
      = m.localNeuronGroups.map NeuronGroup.numNeurons := by
  unfold calcGroupSizes
  rw [pushGroup_other _ _ _ _ (by decide), pushGroup_other _ _ _ _ (by decide),
    sfold_other _ _ _ (by decide) (by decide) (by decide) (by decide) (by decide),
    nfold_neuronUpdate]
  simp [emptyGroupSizes]

/-- Characterisation of Initialize: neuron contributions first, then the
dense synapse products. -/
theorem calc_initializeGroups (m : NNmodel) :
    calcGroupSizes m Kernel.KernelInitialize
      = (m.localNeuronGroups.filter
            (fun n => n.simRNGRequired || n.initCodeRequired)).map NeuronGroup.numNeurons
        ++ (m.localSynapseGroups.filter (fun s =>
              s.matrixWeightIndividual && s.wuVarInitRequired
                && !s.matrixConnectivitySparse)).map
            (fun s => s.srcNumNeurons * s.trgNumNeurons) := by
  unfold calcGroupSizes
  rw [pushGroup_other _ _ _ _ (by decide), pushGroup_other _ _ _ _ (by decide),
    sfold_init, nfold_initializeGroups]
  simp [emptyGroupSizes]

/-- Characterisation of InitializeSparse: the sparse synapse source
sizes. -/
theorem calc_initializeSparse (m : NNmodel) :
    calcGroupSizes m Kernel.KernelInitializeSparse
      = (m.localSynapseGroups.filter (fun s =>
            s.matrixWeightIndividual && s.wuVarInitRequired
              && s.matrixConnectivitySparse)).map SynapseGroup.srcNumNeurons := by
  unfold calcGroupSizes
  rw [pushGroup_other _ _ _ _ (by decide), pushGroup_other _ _ _ _ (by decide),
    sfold_initSparse, nfold_other _ _ _ (by decide) (by decide)]
  simp [emptyGroupSizes]

/-- Characterisation of PreNeuronReset: always exactly one entry, the
neuron-group count. -/
theorem calc_preNeuronReset (m : NNmodel) :
    calcGroupSizes m Kernel.KernelPreNeuronReset = [m.localNeuronGroups.length] := by
  unfold calcGroupSizes
  rw [pushGroup_other _ _ _ _ (by decide), pushGroup_same,
    sfold_other _ _ _ (by decide) (by decide) (by decide) (by decide) (by decide),
    nfold_other _ _ _ (by decide) (by decide)]
  simp [emptyGroupSizes]

/-- Characterisation of PreSynapseReset: always exactly one entry, the
pre-update-reset projection count. -/
theorem calc_preSynapseReset (m : NNmodel) :
    calcGroupSizes m Kernel.KernelPreSynapseReset
      = [m.numPreSynapseResetRequiredGroups] := by
  unfold calcGroupSizes
  rw [pushGroup_same, pushGroup_other _ _ _ _ (by decide),
    sfold_other _ _ _ (by decide) (by decide) (by decide) (by decide) (by decide),
    nfold_other _ _ _ (by decide) (by decide)]
  simp [emptyGroupSizes]

/-- C9 counterexample: the claim fails on the code.  For the empty model
both synthetic categories receive the single entry 0 — the raw count is
pushed unconditionally — so the entry is not a positive integer and the
sequence is not empty either. -/
theorem c9_positive_invariant_counterexample :
    calcGroupSizes emptyNNmodel Kernel.KernelPreNeuronReset = [0]
    ∧ calcGroupSizes emptyNNmodel Kernel.KernelPreSynapseReset = [0]
    ∧ ¬ (∀ x ∈ calcGroupSizes emptyNNmodel Kernel.KernelPreNeuronReset, 0 < x) := by
  refine ⟨by decide, by decide, ?_⟩
  intro hall
  have h0 := hall 0 (by decide)
  exact absurd h0 (by decide)

/-- C9 amended: provided every population size and every external
thread-count estimate in the model is positive, every entry of every
non-synthetic category is a positive integer; for every model, each
non-synthetic category's sequence is empty exactly when no group
contributes to it under the code's guards; and the two synthetic
categories always hold exactly one entry equal to the respective count —
an entry that is zero, not positive, whenever that count is zero. -/
theorem c9_group_sizes_amended (m : NNmodel)
    (hn : ∀ n ∈ m.localNeuronGroups, 0 < n.numNeurons)
    (hs : ∀ s ∈ m.localSynapseGroups,
      0 < s.numPresynapticUpdateThreads ∧ 0 < s.numPostsynapticUpdateThreads
      ∧ 0 < s.numSynapseDynamicsThreads ∧ 0 < s.srcNumNeurons ∧ 0 < s.trgNumNeurons) :
    (∀ k, k ≠ Kernel.KernelPreNeuronReset → k ≠ Kernel.KernelPreSynapseReset →
      ∀ x ∈ calcGroupSizes m k, 0 < x)
    ∧ calcGroupSizes m Kernel.KernelPreNeuronReset = [m.localNeuronGroups.length]
    ∧ calcGroupSizes m Kernel.KernelPreSynapseReset = [m.numPreSynapseResetRequiredGroups]
    ∧ (∀ m2 : NNmodel,
        (calcGroupSizes m2 Kernel.KernelNeuronUpdate = [] ↔ m2.localNeuronGroups = [])
        ∧ (calcGroupSizes m2 Kernel.KernelPresynapticUpdate = []
            ↔ m2.localSynapseGroups = [])
        ∧ (calcGroupSizes m2 Kernel.KernelPostsynapticUpdate = []
            ↔ ∀ s ∈ m2.localSynapseGroups, s.learnPostCode.isEmpty = true)
        ∧ (calcGroupSizes m2 Kernel.KernelSynapseDynamicsUpdate = []
            ↔ ∀ s ∈ m2.localSynapseGroups, s.learnPostCode.isEmpty = true)
        ∧ (calcGroupSizes m2 Kernel.KernelInitialize = []
            ↔ (∀ n ∈ m2.localNeuronGroups,
                  (n.simRNGRequired || n.initCodeRequired) = false)
              ∧ ∀ s ∈ m2.localSynapseGroups,
                  (s.matrixWeightIndividual && s.wuVarInitRequired
                    && !s.matrixConnectivitySparse) = false)
        ∧ (calcGroupSizes m2 Kernel.KernelInitializeSparse = []
            ↔ ∀ s ∈ m2.localSynapseGroups,
                (s.matrixWeightIndividual && s.wuVarInitRequired
                  && s.matrixConnectivitySparse) = false)) := by
  refine ⟨?_, calc_preNeuronReset m, calc_preSynapseReset m, ?_⟩
  · intro k hk1 hk2 x hx
    cases k with
    | KernelNeuronUpdate =>
      rw [calc_neuronUpdate] at hx
      obtain ⟨n, hmem, rfl⟩ := List.mem_map.mp hx
      exact hn n hmem
    | KernelPresynapticUpdate =>
      rw [(c8_synapse_contributions m).1] at hx
      obtain ⟨s, hmem, rfl⟩ := List.mem_map.mp hx
      exact (hs s hmem).1
    | KernelPostsynapticUpdate =>
      rw [(c8_synapse_contributions m).2.1] at hx
      obtain ⟨s, hmem, rfl⟩ := List.mem_map.mp hx
      exact (hs s (List.mem_filter.mp hmem).1).2.1
    | KernelSynapseDynamicsUpdate =>
      rw [(c8_synapse_contributions m).2.2] at hx
      obtain ⟨s, hmem, rfl⟩ := List.mem_map.mp hx
      exact (hs s (List.mem_filter.mp hmem).1).2.2.1
    | KernelInitialize =>
      rw [calc_initializeGroups] at hx
      rcases List.mem_append.mp hx with hx2 | hx2
      · obtain ⟨n, hmem, rfl⟩ := List.mem_map.mp hx2
        exact hn n (List.mem_filter.mp hmem).1
      · obtain ⟨s, hmem, rfl⟩ := List.mem_map.mp hx2
        have hss := hs s (List.mem_filter.mp hmem).1
        exact Nat.mul_pos hss.2.2.2.1 hss.2.2.2.2
    | KernelInitializeSparse =>
      rw [calc_initializeSparse] at hx
      obtain ⟨s, hmem, rfl⟩ := List.mem_map.mp hx
      exact (hs s (List.mem_filter.mp hmem).1).2.2.2.1
    | KernelPreNeuronReset => exact absurd rfl hk1
    | KernelPreSynapseReset => exact absurd rfl hk2
  · intro m2
    refine ⟨?_, ?_, ?_, ?_, ?_, ?_⟩
    · rw [calc_neuronUpdate]
      simp
    · rw [(c8_synapse_contributions m2).1]
      simp
    · rw [(c8_synapse_contributions m2).2.1]
      simp
    · rw [(c8_synapse_contributions m2).2.2]
      simp
    · rw [calc_initializeGroups]
      simp
    · rw [calc_initializeSparse]
      simp

/-- C9 witness: the amended theorem applied to the concrete witness model
with all-positive sizes and estimates. -/
theorem c9_group_sizes_amended_witness :
    ((∀ n ∈ modelWitness.localNeuronGroups, 0 < n.numNeurons)
      ∧ (∀ s ∈ modelWitness.localSynapseGroups,
          0 < s.numPresynapticUpdateThreads ∧ 0 < s.numPostsynapticUpdateThreads
          ∧ 0 < s.numSynapseDynamicsThreads ∧ 0 < s.srcNumNeurons ∧ 0 < s.trgNumNeurons))
    ∧ ((∀ k, k ≠ Kernel.KernelPreNeuronReset → k ≠ Kernel.KernelPreSynapseReset →
        ∀ x ∈ calcGroupSizes modelWitness k, 0 < x)
      ∧ calcGroupSizes modelWitness Kernel.KernelPreNeuronReset
          = [modelWitness.localNeuronGroups.length]
      ∧ calcGroupSizes modelWitness Kernel.KernelPreSynapseReset
          = [modelWitness.numPreSynapseResetRequiredGroups]
      ∧ (∀ m2 : NNmodel,
          (calcGroupSizes m2 Kernel.KernelNeuronUpdate = [] ↔ m2.localNeuronGroups = [])
          ∧ (calcGroupSizes m2 Kernel.KernelPresynapticUpdate = []
              ↔ m2.localSynapseGroups = [])
          ∧ (calcGroupSizes m2 Kernel.KernelPostsynapticUpdate = []
              ↔ ∀ s ∈ m2.localSynapseGroups, s.learnPostCode.isEmpty = true)
          ∧ (calcGroupSizes m2 Kernel.KernelSynapseDynamicsUpdate = []
              ↔ ∀ s ∈ m2.localSynapseGroups, s.learnPostCode.isEmpty = true)
          ∧ (calcGroupSizes m2 Kernel.KernelInitialize = []
              ↔ (∀ n ∈ m2.localNeuronGroups,
                    (n.simRNGRequired || n.initCodeRequired) = false)
                ∧ ∀ s ∈ m2.localSynapseGroups,
                    (s.matrixWeightIndividual && s.wuVarInitRequired
                      && !s.matrixConnectivitySparse) = false)
          ∧ (calcGroupSizes m2 Kernel.KernelInitializeSparse = []
              ↔ ∀ s ∈ m2.localSynapseGroups,
                  (s.matrixWeightIndividual && s.wuVarInitRequired
                    && s.matrixConnectivitySparse) = false))) :=
  ⟨⟨by decide, by decide⟩,
    c9_group_sizes_amended modelWitness (by decide) (by decide)⟩

/-- C10: the code leaks the device context on the failing path.  When the
first compiler invocation reports a nonzero exit status, the optimisation
pass propagates the build failure with the context created at its start
still alive: the raw context handle has no scoped release, and the
`cuCtxDestroy` call is only reached on the normal path. -/
theorem c10_context_leak_on_build_failure :
    optimizeBlockSizeTrace [false] = (Except.error OptError.buildFailure, true)
    ∧ optimizeBlockSizeTrace [true, true] = (Except.ok (), false) :=
  ⟨rfl, rfl⟩

end GeNN
